import Mathlib

/-!
Verification of the TwisTorr 304 FS serial-protocol implementation
(`tt304.py` and `twistorr.py`): the frame codec (`pack`/`unpack`,
`pack_request`/`unpack_reply`), the XOR checksum renderers (`crc`,
`crc_bytes`), the stream scanner (`scan_for_replies`, which models the
regex `STX .*? ETX \w\w` used with `findall`/`sub`), and the bounded
retry loop of `TT304.query_raw`/`query_unpack`.

Bytes are modelled as natural numbers (the values of Python `ord`);
byte strings are `List Nat`.  Python exceptions are modelled by
`Except PyErr`.
-/

set_option maxRecDepth 100000

/-- Python exception kinds raised by the two modules. -/
inductive PyErr
  | valueError (msg : String)
  | typeError (msg : String)
  | indexError (msg : String)
  | exception (msg : String)
deriving DecidableEq

deriving instance DecidableEq for Except

/-- Constant `STX = 0x02` (tt304.py line 17, twistorr.py line 14). -/
def STX : Nat := 0x02

/-- Constant `ETX = 0x03` (tt304.py line 18, twistorr.py line 15). -/
def ETX : Nat := 0x03

/-- Constant `ACK = 0x06` (tt304.py line 10). -/
def ACK : Nat := 0x06

/-- Constant `NACK = 0x15` (tt304.py line 11). -/
def NACK : Nat := 0x15

/-- Constant `ON = 0x31` (tt304.py line 20). -/
def ON : Nat := 0x31

/-- Constant `OFF = 0x30` (tt304.py line 21). -/
def OFF : Nat := 0x30

/-- Constant `WR = 0x31` (tt304.py line 23). -/
def WR : Nat := 0x31

/-- Constant `RD = 0x30` (tt304.py line 24). -/
def RD : Nat := 0x30

/-- ASCII code of the uppercase hexadecimal digit for `n < 16`
(`0x30..0x39` then `0x41..0x46`). -/
def hexDigitChar (n : Nat) : Nat :=
  if n < 10 then 0x30 + n else 0x37 + n

/-- Fuel-driven most-significant-first hexadecimal rendering. -/
def toHexAux : Nat → Nat → List Nat
  | 0, n => [hexDigitChar (n % 16)]
  | fuel + 1, n =>
    if n < 16 then [hexDigitChar n]
    else toHexAux fuel (n / 16) ++ [hexDigitChar (n % 16)]

/-- ASCII bytes of Python format `X` applied to `n`: uppercase
hexadecimal with NO zero padding (one digit for `n < 16`). -/
def toHexUpper (n : Nat) : List Nat := toHexAux n n

/-- Fuel-driven most-significant-first decimal rendering. -/
def toDecAux : Nat → Nat → List Nat
  | 0, n => [0x30 + n % 10]
  | fuel + 1, n =>
    if n < 10 then [0x30 + n]
    else toDecAux fuel (n / 10) ++ [0x30 + n % 10]

/-- ASCII decimal digits of a natural number. -/
def toDecDigits (n : Nat) : List Nat := toDecAux n n

/-- Left-pad an ASCII digit list with `0x30` (the character `0`)
up to width `k`. -/
def zeroPadTo (k : Nat) (ds : List Nat) : List Nat :=
  List.replicate (k - ds.length) 0x30 ++ ds

/-- Python format `03d` applied to an integer: minimum width 3,
zero filled, with a leading minus sign (`0x2D`) counted inside the
width for negative values (so `-1` renders as `-01`). -/
def format03d (w : Int) : List Nat :=
  if w < 0 then 0x2D :: zeroPadTo 2 (toDecDigits w.natAbs)
  else zeroPadTo 3 (toDecDigits w.natAbs)

/-- Running XOR of a byte list (the accumulator loop shared by
`tt304.crc` and `twistorr.crc_bytes`). -/
def crcVal (byte_list : List Nat) : Nat :=
  byte_list.foldl Nat.xor 0

/-- Function `tt304.crc` (tt304.py lines 26-35): XOR of the bytes, rendered by
Python format `X` — uppercase hex with NO zero padding, so results
below `0x10` render as a single ASCII byte. -/
def crc (byte_list : List Nat) : List Nat :=
  toHexUpper (crcVal byte_list)

/-- Function `twistorr.crc_bytes` (twistorr.py lines 26-30): XOR of the bytes,
rendered by Python format `%0.2X` — uppercase hex, zero padded to
two digits. -/
def crc_bytes (byte_list : List Nat) : List Nat :=
  zeroPadTo 2 (toHexUpper (crcVal byte_list))

/-- The `window` argument of `pack`/`pack_request`: a Python `int` or
an (already three-digit) string. -/
inductive WindowArg
  | int (w : Int)
  | str (s : List Nat)

/-- The `data` argument of `TT304.pack`: a Python `int` or a string. -/
inductive PackData
  | int (n : Nat)
  | str (s : List Nat)

/-- Python format `%0.3i` applied to an integer: the precision `.3`
demands at least three DIGITS, zero padded, and a minus sign is NOT
counted towards it (so `-1` renders as `-001`, four characters —
unlike format `03d`, whose width counts the sign). -/
def format03i (w : Int) : List Nat :=
  if w < 0 then 0x2D :: zeroPadTo 3 (toDecDigits w.natAbs)
  else zeroPadTo 3 (toDecDigits w.natAbs)

/-- The digits used for the window field of `TT304.pack`: an `int`
window goes through Python format `03d` (tt304.py line 102), a string
window is used as-is. -/
def windowDigits : WindowArg → List Nat
  | .int w => format03d w
  | .str s => s

/-- The digits used for the window field of `pack_request`: an `int`
window goes through Python format `%0.3i` (twistorr.py line 53), a
string window is used as-is. -/
def windowDigitsReq : WindowArg → List Nat
  | .int w => format03i w
  | .str s => s

/-- Method `TT304.pack` (tt304.py lines 77-126).  Checks are performed in
source order: first `mode == RD and len(data) != 0` (where `len` of an
`int` raises a `TypeError`), then the window is formatted and its
length checked, then an `int` data argument is required to be `ON` or
`OFF` and converted by `chr` to a one-byte string.  The frame is
`[STX, 0x80+devno] ++ window ++ [mode] ++ data ++ [ETX]` followed by
`crc` of everything after `STX`. -/
def pack (window : WindowArg) (mode : Nat) (data : PackData) (devno : Nat) :
    Except PyErr (List Nat) :=
  match (match data with
    | .int _ =>
      if mode = RD then some (PyErr.typeError "object of type int has no len")
      else none
    | .str s =>
      if mode = RD ∧ s.length ≠ 0 then
        some (PyErr.valueError "Cannot write data in a read request")
      else none) with
  | some e => .error e
  | none =>
    let wdigits := windowDigits window
    if wdigits.length ≠ 3 then
      .error (.valueError "Window number must be in the interval 0 to 999")
    else
      match (match data with
        | .int n =>
          if n ≠ ON ∧ n ≠ OFF then
            Except.error (PyErr.valueError "Data must be string unless ON or OFF logic")
          else .ok [n]
        | .str s => Except.ok s) with
      | .error e => .error e
      | .ok ds =>
        let body := STX :: (0x80 + devno) :: (wdigits ++ mode :: ds ++ [ETX])
        .ok (body ++ crc (body.drop 1))

/-- Function `twistorr.pack_request` (twistorr.py lines 33-82).  `com` is the
ASCII code of the command character (`0x72` for `r`, `0x77` for `w`);
the mode byte is `0x31` when `com` is `w` and `0x30` otherwise.  An
`int` window is formatted with `%0.3i` (digits padded to three, sign
extra), then the three-character length check is applied.  The
checksum uses the zero-padded `crc_bytes`. -/
def pack_request (window : WindowArg) (com : Nat) (data : List Nat) (devno : Nat) :
    Except PyErr (List Nat) :=
  if com = 0x72 ∧ data.length ≠ 0 then
    .error (.exception "Cannot write data in a read request")
  else
    let wdigits := windowDigitsReq window
    if wdigits.length ≠ 3 then
      .error (.exception "Window number must be in the interval 0 to 999")
    else
      let body := STX :: (0x80 + devno) :: (wdigits ++ (if com = 0x77 then 0x31 else 0x30) :: data ++ [ETX])
      .ok (body ++ crc_bytes (body.drop 1))

/-- Method `TT304.unpack` (tt304.py lines 248-280).  `none` models the Python
value `None`.  The checksum is recomputed by `crc` over `reply[1:-2]`
and compared with `reply[-2:]`; a mismatch only clears the flag.  The
returned contents are `reply[2:-3]`, the device number is
`ord(reply[1]) - 0x80` (an `IndexError` when the reply is a single
byte). -/
def unpack (reply : Option (List Nat)) : Except PyErr (List Nat × Int × Bool) :=
  match reply with
  | none => .error (.exception "Cannot unpack empty reply")
  | some r =>
    if r.length = 0 then .error (.exception "Cannot unpack empty reply")
    else if r.length < 2 then .error (.indexError "string index out of range")
    else .ok ((r.dropLast.dropLast.dropLast).drop 2, (r.getD 1 0 : Int) - 0x80,
      decide (r.drop (r.length - 2) = crc ((r.dropLast.dropLast).drop 1)))

/-- Function `twistorr.unpack_reply` (twistorr.py lines 93-122).  Identical to
`TT304.unpack` except that the checksum is recomputed with the padded
`crc_bytes` and the device number comes first in the returned tuple.
The reply here is always a string produced by `scan_for_replies`, so
only the empty-string branch of the `None`-or-empty check is
modelled. -/
def unpack_reply (reply : List Nat) : Except PyErr (Int × List Nat × Bool) :=
  if reply.length = 0 then .error (.exception "Cannot unpack empty reply")
  else if reply.length < 2 then .error (.indexError "string index out of range")
  else .ok ((reply.getD 1 0 : Int) - 0x80, (reply.dropLast.dropLast.dropLast).drop 2,
    decide (reply.drop (reply.length - 2) = crc_bytes ((reply.dropLast.dropLast).drop 1)))

/-- Word characters of the Python 2 regex class `\w` on byte strings
(no re.UNICODE / re.LOCALE): letters, digits and underscore. -/
def isWordChar (b : Nat) : Prop :=
  (0x30 ≤ b ∧ b ≤ 0x39) ∨ (0x41 ≤ b ∧ b ≤ 0x5A) ∨ (0x61 ≤ b ∧ b ≤ 0x7A) ∨ b = 0x5F

instance : DecidablePred isWordChar := fun b => by
  unfold isWordChar; infer_instance

/-- Matching of the sub-pattern `.*? ETX \w\w` of `reply_regex`
(twistorr.py lines 23-24) at the start of a byte list: returns the
consumed bytes and the remainder.  Non-greedy `.*?` stops at the first
`ETX` that is followed by two word characters; an `ETX` without them is
consumed by `.` and the search continues; `.` never matches a newline
(`0x0A`), which makes the whole attempt fail. -/
def findBody : List Nat → Option (List Nat × List Nat)
  | [] => none
  | b :: t =>
    if b = ETX ∧ 2 ≤ t.length ∧ isWordChar (t.getD 0 0) ∧ isWordChar (t.getD 1 0) then
      some (b :: t.take 2, t.drop 2)
    else if b = 0x0A then none
    else (findBody t).map fun q => (b :: q.1, q.2)

/-- One left-to-right pass of `reply_regex` over the buffer, with fuel:
at each position, a match of `STX .*? ETX \w\w` is either extracted
(and scanning resumes after it) or the byte is left in place.  This is
the combined effect of `findall` (first component) and `sub` with the
empty replacement (second component). -/
def scanAux : Nat → List Nat → List (List Nat) × List Nat
  | 0, l => ([], l)
  | _ + 1, [] => ([], [])
  | fuel + 1, b :: t =>
    if b = STX then
      match findBody t with
      | some (m, r) => ((b :: m) :: (scanAux fuel r).1, (scanAux fuel r).2)
      | none => ((scanAux fuel t).1, b :: (scanAux fuel t).2)
    else ((scanAux fuel t).1, b :: (scanAux fuel t).2)

/-- Function `twistorr.scan_for_replies` (twistorr.py lines 84-91): returns the
list of reply frames found by `reply_regex.findall` and the stream with
those frames removed by `reply_regex.sub`. -/
def scan_for_replies (stream : List Nat) : List (List Nat) × List Nat :=
  scanAux stream.length stream

/-- Outcome of one iteration of the retry loop in `TT304.query_raw`
(tt304.py lines 190-228): `send_raw` raises `IOError`, or it succeeds
and `receive` raises `IOError`, or `receive` returns a reply. -/
inductive Attempt
  | sendFail
  | recvFail
  | recvOk (reply : List Nat)

/-- The `while retries > 0` loop of `TT304.query_raw`, with the
transport abstracted by an oracle giving the outcome of iteration `i`.
Returns the number of `send_raw` attempts performed (one per
iteration) together with the result: the received reply, or `None`
after the budget is exhausted. -/
def query_rawAux (att : Nat → Attempt) : Nat → Nat → Nat × Option (List Nat)
  | _, 0 => (0, none)
  | i, r + 1 =>
    match att i with
    | .recvOk reply => (1, some reply)
    | _ => ((query_rawAux att (i + 1) r).1 + 1, (query_rawAux att (i + 1) r).2)

/-- Method `TT304.query_raw` starting at iteration 0 with `self.retries` as
the budget. -/
def query_raw (att : Nat → Attempt) (retries : Nat) : Nat × Option (List Nat) :=
  query_rawAux att 0 retries

/-- Method `TT304.query_unpack` (tt304.py lines 244-246): `unpack` applied to
the result of the query (which is `None` when all attempts failed). -/
def query_unpack (att : Nat → Attempt) (retries : Nat) :
    Except PyErr (List Nat × Int × Bool) :=
  unpack (query_raw att retries).2

/-- Whether an `Except` result is a raised `ValueError`. -/
def isValueError {α : Type} : Except PyErr α → Bool
  | .error (.valueError _) => true
  | _ => false

theorem findBody_length : ∀ (l m r : List Nat), findBody l = some (m, r) → r.length ≤ l.length := by
  intro l
  induction l with
  | nil => intro m r h; simp [findBody] at h
  | cons b t ih =>
    intro m r h
    rw [findBody] at h
    split at h
    · simp only [Option.some.injEq, Prod.mk.injEq] at h
      have hr : r.length ≤ t.length := by
        rw [← h.2]
        simp only [List.length_drop]
        omega
      simp only [List.length_cons]
      omega
    · split at h
      · exact absurd h (by simp)
      · rcases hq : findBody t with _ | ⟨q1, q2⟩
        · rw [hq] at h; simp at h
        · rw [hq] at h
          simp at h
          obtain ⟨hm, hr⟩ := h
          subst hr
          have hle := ih q1 q2 hq
          simp only [List.length_cons]
          omega

theorem findBody_frame : ∀ (pre rest : List Nat) (c1 c2 : Nat),
    (∀ x ∈ pre, x ≠ ETX ∧ x ≠ 0x0A) → isWordChar c1 → isWordChar c2 →
    findBody (pre ++ ETX :: c1 :: c2 :: rest) = some (pre ++ [ETX, c1, c2], rest) := by
  intro pre
  induction pre with
  | nil =>
    intro rest c1 c2 _ hc1 hc2
    have hcond : ETX = ETX ∧ 2 ≤ (c1 :: c2 :: rest).length ∧
        isWordChar ((c1 :: c2 :: rest).getD 0 0) ∧ isWordChar ((c1 :: c2 :: rest).getD 1 0) := by
      refine ⟨rfl, by simp, by simpa, by simpa⟩
    rw [List.nil_append, findBody, if_pos hcond]
    simp
  | cons x pre ih =>
    intro rest c1 c2 hpre hc1 hc2
    have hx := hpre x (by simp)
    rw [List.cons_append, findBody, if_neg (fun hcon => hx.1 hcon.1), if_neg hx.2,
      ih rest c1 c2 (fun y hy => hpre y (by simp [hy])) hc1 hc2]
    simp

theorem findBody_none_of_no_etx : ∀ (l : List Nat), (∀ x ∈ l, x ≠ ETX) → findBody l = none := by
  intro l
  induction l with
  | nil => intro _; rw [findBody]
  | cons b t ih =>
    intro h
    rw [findBody, if_neg]
    · split
      · rfl
      · rw [ih (fun y hy => h y (by simp [hy]))]; rfl
    · intro hcon
      exact h b (by simp) hcon.1

theorem scanAux_succ_stx (fuel : Nat) (t : List Nat) :
    scanAux (fuel + 1) (STX :: t) =
      match findBody t with
      | some (m, r) => ((STX :: m) :: (scanAux fuel r).1, (scanAux fuel r).2)
      | none => ((scanAux fuel t).1, STX :: (scanAux fuel t).2) := by
  rw [scanAux, if_pos rfl]

theorem scanAux_succ_other (fuel : Nat) (b : Nat) (t : List Nat) (hb : b ≠ STX) :
    scanAux (fuel + 1) (b :: t) = ((scanAux fuel t).1, b :: (scanAux fuel t).2) := by
  rw [scanAux, if_neg hb]

theorem scanAux_fuel_irrel : ∀ (fuel : Nat) (l : List Nat), l.length ≤ fuel →
    scanAux fuel l = scanAux l.length l := by
  intro fuel
  induction fuel using Nat.strong_induction_on with
  | _ fuel ih =>
    match fuel with
    | 0 =>
      intro l hl
      have : l = [] := List.length_eq_zero.mp (Nat.le_zero.mp hl)
      simp [this]
    | k + 1 =>
      intro l hl
      match l with
      | [] => rfl
      | b :: t =>
        have ht : t.length ≤ k := by simpa using hl
        rw [show (b :: t).length = t.length + 1 from rfl]
        by_cases hb : b = STX
        · subst hb
          rcases hfb : findBody t with _ | ⟨m, r⟩
          · simp only [scanAux_succ_stx, hfb]
            rw [ih k (by omega) t ht, ih t.length (by omega) t (le_refl _)]
          · have hr : r.length ≤ t.length := findBody_length t m r hfb
            simp only [scanAux_succ_stx, hfb]
            rw [ih k (by omega) r (by omega), ih t.length (by omega) r hr]
        · rw [scanAux_succ_other k b t hb, scanAux_succ_other t.length b t hb,
            ih k (by omega) t ht, ih t.length (by omega) t (le_refl _)]

theorem scan_cons_other (x : Nat) (l : List Nat) (hx : x ≠ STX) :
    scan_for_replies (x :: l) = ((scan_for_replies l).1, x :: (scan_for_replies l).2) := by
  show scanAux (x :: l).length (x :: l) = _
  rw [show (x :: l).length = l.length + 1 from rfl, scanAux_succ_other l.length x l hx]
  rfl

theorem scan_frame_step (a : Nat) (p : List Nat) (c1 c2 : Nat) (rest : List Nat)
    (ha : a ≠ ETX ∧ a ≠ 0x0A) (hp : ∀ x ∈ p, x ≠ ETX ∧ x ≠ 0x0A)
    (hc1 : isWordChar c1) (hc2 : isWordChar c2) :
    scan_for_replies ((STX :: a :: p ++ [ETX, c1, c2]) ++ rest) =
      ((STX :: a :: p ++ [ETX, c1, c2]) :: (scan_for_replies rest).1,
        (scan_for_replies rest).2) := by
  have hfb : findBody (a :: (p ++ [ETX, c1, c2] ++ rest)) =
      some (a :: p ++ [ETX, c1, c2], rest) := by
    have := findBody_frame (a :: p) rest c1 c2
      (by intro x hx
          rcases List.mem_cons.mp hx with h | h
          · rw [h]; exact ha
          · exact hp x h) hc1 hc2
    simpa using this
  have hshape : (STX :: a :: p ++ [ETX, c1, c2]) ++ rest =
      STX :: (a :: (p ++ [ETX, c1, c2] ++ rest)) := by simp
  show scanAux ((STX :: a :: p ++ [ETX, c1, c2]) ++ rest).length
    ((STX :: a :: p ++ [ETX, c1, c2]) ++ rest) = _
  rw [hshape,
    show (STX :: (a :: (p ++ [ETX, c1, c2] ++ rest))).length
      = (a :: (p ++ [ETX, c1, c2] ++ rest)).length + 1 from rfl]
  simp only [scanAux_succ_stx, hfb]
  rw [scanAux_fuel_irrel (a :: (p ++ [ETX, c1, c2] ++ rest)).length rest
    (by simp [List.length_append]; omega)]
  simp [scan_for_replies]

theorem scan_no_etx : ∀ (l : List Nat), (∀ x ∈ l, x ≠ ETX) →
    scan_for_replies l = ([], l) := by
  intro l
  induction l with
  | nil => intro _; rfl
  | cons b t ih =>
    intro h
    have ht := ih (fun y hy => h y (by simp [hy]))
    by_cases hb : b = STX
    · subst hb
      show scanAux (STX :: t).length (STX :: t) = _
      rw [show (STX :: t).length = t.length + 1 from rfl]
      simp only [scanAux_succ_stx,
        findBody_none_of_no_etx t (fun y hy => h y (by simp [hy]))]
      show ((scan_for_replies t).1, STX :: (scan_for_replies t).2) = _
      rw [ht]
    · rw [scan_cons_other b t hb, ht]

theorem scan_append_noise : ∀ (n1 l : List Nat), (∀ x ∈ n1, x ≠ STX) →
    scan_for_replies (n1 ++ l) = ((scan_for_replies l).1, n1 ++ (scan_for_replies l).2) := by
  intro n1
  induction n1 with
  | nil => intro l _; simp
  | cons x n1 ih =>
    intro l h
    rw [List.cons_append, scan_cons_other x (n1 ++ l) (h x (by simp)),
      ih l (fun y hy => h y (by simp [hy]))]
    simp

theorem format03d_ofNat (n : Nat) : format03d (n : Int) = zeroPadTo 3 (toDecDigits n) := by
  rw [format03d, if_neg (by omega), Int.natAbs_ofNat]

theorem format03d_window : ∀ n ≤ 999, (zeroPadTo 3 (toDecDigits n)).length = 3 ∧
    ∀ b ∈ zeroPadTo 3 (toDecDigits n), 0x30 ≤ b ∧ b ≤ 0x39 := by decide

theorem toHexUpper_two_digits : ∀ v < 256, 16 ≤ v →
    toHexUpper v = [hexDigitChar (v / 16), hexDigitChar (v % 16)] := by decide

theorem xor_byte_bound (acc b : Nat) (hacc : 128 ≤ acc ∧ acc < 256) (hb : b < 128) :
    128 ≤ acc ^^^ b ∧ acc ^^^ b < 256 := by
  constructor
  · by_contra hcon
    push_neg at hcon
    have h1 : acc ^^^ b < 2 ^ 7 := hcon
    have h2 : b < 2 ^ 7 := hb
    have := Nat.xor_lt_two_pow h1 h2
    rw [Nat.xor_cancel_right] at this
    omega
  · have h1 : acc < 2 ^ 8 := hacc.2
    have h2 : b < 2 ^ 8 := by omega
    exact Nat.xor_lt_two_pow h1 h2

theorem foldl_xor_bound : ∀ (l : List Nat) (acc : Nat), (∀ b ∈ l, b < 128) →
    128 ≤ acc → acc < 256 → 128 ≤ l.foldl Nat.xor acc ∧ l.foldl Nat.xor acc < 256 := by
  intro l
  induction l with
  | nil => intro acc _ h1 h2; exact ⟨h1, h2⟩
  | cons b t ih =>
    intro acc hl h1 h2
    rw [List.foldl_cons]
    have hstep := xor_byte_bound acc b ⟨h1, h2⟩ (hl b (by simp))
    exact ih (Nat.xor acc b) (fun y hy => hl y (by simp [hy])) hstep.1 hstep.2

theorem crcVal_addr_bound (a : Nat) (rest : List Nat) (ha : 128 ≤ a ∧ a < 256)
    (hrest : ∀ b ∈ rest, b < 128) :
    128 ≤ crcVal (a :: rest) ∧ crcVal (a :: rest) < 256 := by
  rw [crcVal, List.foldl_cons]
  have : Nat.xor 0 a = a := Nat.zero_xor a
  rw [this]
  exact foldl_xor_bound rest a hrest ha.1 ha.2

theorem crc_two_bytes (a : Nat) (rest : List Nat) (ha : 128 ≤ a ∧ a < 256)
    (hrest : ∀ b ∈ rest, b < 128) :
    crc (a :: rest) = [hexDigitChar (crcVal (a :: rest) / 16),
      hexDigitChar (crcVal (a :: rest) % 16)] := by
  have hb := crcVal_addr_bound a rest ha hrest
  exact toHexUpper_two_digits (crcVal (a :: rest)) hb.2 (by omega)

theorem dropLast_two_append (l : List Nat) (a b : Nat) :
    ((l ++ [a, b]).dropLast).dropLast = l := by
  rw [show l ++ [a, b] = (l ++ [a]) ++ [b] by simp, List.dropLast_concat, List.dropLast_concat]

theorem drop_last_two (l : List Nat) (a b : Nat) :
    (l ++ [a, b]).drop ((l ++ [a, b]).length - 2) = [a, b] := by
  have : (l ++ [a, b]).length - 2 = l.length := by simp
  rw [this, List.drop_left]

theorem query_rawAux_all_recvFail (att : Nat → Attempt) (h : ∀ i, att i = .recvFail) :
    ∀ (r i : Nat), query_rawAux att i r = (r, none) := by
  intro r
  induction r with
  | zero => intro i; rfl
  | succ n ih =>
    intro i
    rw [query_rawAux, h i]
    simp [ih (i + 1)]

theorem unpack_frame_ok (a : Nat) (q : List Nat) (c1 c2 : Nat)
    (hcs : crc (a :: (q ++ [ETX])) = [c1, c2]) :
    unpack (some (STX :: a :: (q ++ [ETX, c1, c2]))) =
      .ok (q, (a : Int) - 0x80, true) := by
  have hshape : STX :: a :: (q ++ [ETX, c1, c2]) = (STX :: a :: (q ++ [ETX])) ++ [c1, c2] := by
    simp
  have hdl2 : ((STX :: a :: (q ++ [ETX, c1, c2])).dropLast).dropLast
      = STX :: a :: (q ++ [ETX]) := by
    rw [hshape, dropLast_two_append]
  have hdl3 : (((STX :: a :: (q ++ [ETX, c1, c2])).dropLast).dropLast).dropLast
      = STX :: a :: q := by
    rw [hdl2, show STX :: a :: (q ++ [ETX]) = (STX :: a :: q) ++ [ETX] by simp,
      List.dropLast_concat]
  have hlast : (STX :: a :: (q ++ [ETX, c1, c2])).drop
      ((STX :: a :: (q ++ [ETX, c1, c2])).length - 2) = [c1, c2] := by
    rw [hshape]
    exact drop_last_two _ c1 c2
  simp only [unpack]
  rw [if_neg (by simp), if_neg (by simp), hdl3, hdl2, hlast]
  simp only [List.drop_succ_cons, List.drop_zero, List.getD_cons_succ, List.getD_cons_zero]
  rw [decide_eq_true (by simpa using hcs.symm)]

/-- C1: `tt304.crc` renders the XOR result with Python format `X`,
which does NOT zero-pad: an XOR result of `0x0A` is rendered as the
single byte `A` (0x41) rather than the two bytes `0`,`A` promised by
the claim (and by the docstring of `crc` itself), so a frame built by
`TT304.pack` can end in a one-byte checksum.  `twistorr.crc_bytes`
(format `%0.2X`) does pad. -/
theorem c1_crc_unpadded :
    crc [0x0A] = [0x41] ∧ crc_bytes [0x0A] = [0x30, 0x41] ∧
    pack (.int 0) WR (.str [0x88]) 0 =
      .ok [0x02, 0x80, 0x30, 0x30, 0x30, 0x31, 0x88, 0x03, 0x41] := by decide

/-- C3 counterexample: `pack(window=0, mode=WR, data="1")` with
`devno = 0` does not produce the frame claimed by the specification
(`.. 31 46`, i.e. checksum `1F`). -/
theorem c3_counterexample :
    pack (.int 0) WR (.str [0x31]) 0 ≠
      .ok [0x02, 0x80, 0x30, 0x30, 0x30, 0x31, 0x31, 0x03, 0x31, 0x46] := by decide

/-- C3 as amended: the XOR of `80 30 30 30 31 31 03` is `0xB3`, so the
encoded frame is `02 80 30 30 30 31 31 03` followed by ASCII `B3`
(bytes `42 33`). -/
theorem c3_actual_frame :
    pack (.int 0) WR (.str [0x31]) 0 =
      .ok [0x02, 0x80, 0x30, 0x30, 0x30, 0x31, 0x31, 0x03, 0x42, 0x33] ∧
    crcVal [0x80, 0x30, 0x30, 0x30, 0x31, 0x31, 0x03] = 0xB3 := by decide

/-- C4: the window `-1` is outside `[0, 999]`, yet `TT304.pack`
silently accepts it: its format `03d` counts the minus sign towards
the width and renders `-1` as the three characters `-01`, which passes
the length-3 check, and a frame is produced instead of a `ValueError`.
By contrast `pack_request`, whose format `%0.3i` pads the digits to
three and puts the sign on top (`-001`, four characters), rejects the
same window. -/
theorem c4_negative_window_accepted :
    ¬(0 ≤ (-1 : Int) ∧ (-1 : Int) ≤ 999) ∧
    format03d (-1) = [0x2D, 0x30, 0x31] ∧
    pack (.int (-1)) RD (.str []) 0 =
      .ok [0x02, 0x80, 0x2D, 0x30, 0x31, 0x30, 0x03, 0x39, 0x46] ∧
    format03i (-1) = [0x2D, 0x30, 0x30, 0x31] ∧
    pack_request (.int (-1)) 0x72 [] 0 =
      .error (.exception "Window number must be in the interval 0 to 999") := by decide

/-- C5: against a transport whose receives always fail, `query_raw`
performs exactly `retries` send attempts and then returns `None`. -/
theorem c5_retry_exhaustion (att : Nat → Attempt) (retries : Nat)
    (h : ∀ i, att i = .recvFail) :
    query_raw att retries = (retries, none) :=
  query_rawAux_all_recvFail att h retries 0

theorem c5_retry_exhaustion_witness :
    query_raw (fun _ => Attempt.recvFail) 4 = (4, none) :=
  c5_retry_exhaustion (fun _ => Attempt.recvFail) 4 (fun _ => rfl)

/-- C9: when every attempt fails, `query_unpack` does not return the
`None` produced by `query_raw`; `unpack` raises the
`Cannot unpack empty reply` exception instead, so the `None` checks
after `query_unpack` in `start`/`stop` are unreachable. -/
theorem c9_query_unpack_raises (att : Nat → Attempt) (retries : Nat)
    (h : ∀ i, att i = .recvFail) :
    query_unpack att retries = .error (.exception "Cannot unpack empty reply") := by
  rw [query_unpack, query_raw, query_rawAux_all_recvFail att h retries 0]
  rfl

theorem c9_query_unpack_raises_witness :
    query_unpack (fun _ => Attempt.recvFail) 4 =
      .error (.exception "Cannot unpack empty reply") :=
  c9_query_unpack_raises (fun _ => Attempt.recvFail) 4 (fun _ => rfl)

/-- C8: for a complete frame whose trailing two checksum bytes do not
match the recomputed checksum over address through `ETX`, `unpack`
still returns the decoded contents and device number, with the
checksum flag `false`; no exception is raised and the reply is not
dropped. -/
theorem c8_checksum_mismatch_still_returned (a c1 c2 : Nat) (p : List Nat)
    (hmis : [c1, c2] ≠ crc (a :: (p ++ [ETX]))) :
    unpack (some (STX :: a :: (p ++ [ETX, c1, c2]))) =
      .ok (p, (a : Int) - 0x80, false) := by
  have hshape : STX :: a :: (p ++ [ETX, c1, c2]) = (STX :: a :: (p ++ [ETX])) ++ [c1, c2] := by
    simp
  have hdl2 : ((STX :: a :: (p ++ [ETX, c1, c2])).dropLast).dropLast
      = STX :: a :: (p ++ [ETX]) := by
    rw [hshape, dropLast_two_append]
  have hdl3 : (((STX :: a :: (p ++ [ETX, c1, c2])).dropLast).dropLast).dropLast
      = STX :: a :: p := by
    rw [hdl2, show STX :: a :: (p ++ [ETX]) = (STX :: a :: p) ++ [ETX] by simp,
      List.dropLast_concat]
  have hlast : (STX :: a :: (p ++ [ETX, c1, c2])).drop
      ((STX :: a :: (p ++ [ETX, c1, c2])).length - 2) = [c1, c2] := by
    rw [hshape]
    exact drop_last_two _ c1 c2
  simp only [unpack]
  rw [if_neg (by simp), if_neg (by simp), hdl3, hdl2, hlast]
  simp only [List.drop_succ_cons, List.drop_zero, List.getD_cons_succ, List.getD_cons_zero]
  rw [decide_eq_false (by simpa using hmis)]

theorem c8_checksum_mismatch_still_returned_witness :
    unpack (some (STX :: 0x80 :: ([0x06] ++ [ETX, 0x30, 0x30]))) =
      .ok ([0x06], (0x80 : Int) - 0x80, false) :=
  c8_checksum_mismatch_still_returned 0x80 0x30 0x30 [0x06] (by decide)

/-- C10 counterexample: with the default mode `RD`, an integer data
argument other than `ON`/`OFF` (here `0x32`) makes `pack` raise a
`TypeError` (from `len(data)` in the read-request check), not the
`ValueError` stated by the claim. -/
theorem c10_counterexample :
    pack (.int 0) RD (.int 0x32) 0 = .error (.typeError "object of type int has no len") ∧
    isValueError (pack (.int 0) RD (.int 0x32) 0) = false := by decide

/-- C10 as amended: when the mode is `WR`, an integer data argument is
accepted exactly when it is `ON` or `OFF` (and is then equivalent to
the corresponding one-byte string), any other integer raising a
`ValueError`; any string data is accepted without content validation.
When the mode is `RD`, every integer data argument raises a
`TypeError` from `len(data)` before the `ON`/`OFF` check is reached. -/
theorem c10_int_data_handling (w devno n : Nat) (s : List Nat) (hw : w ≤ 999) :
    pack (.int (w : Int)) RD (.int n) devno =
      .error (.typeError "object of type int has no len") ∧
    (n ≠ ON → n ≠ OFF → pack (.int (w : Int)) WR (.int n) devno =
      .error (.valueError "Data must be string unless ON or OFF logic")) ∧
    pack (.int (w : Int)) WR (.int ON) devno = pack (.int (w : Int)) WR (.str [ON]) devno ∧
    pack (.int (w : Int)) WR (.int OFF) devno = pack (.int (w : Int)) WR (.str [OFF]) devno ∧
    (pack (.int (w : Int)) WR (.str s) devno).isOk = true := by
  have hlen : (windowDigits (.int (w : Int))).length = 3 := by
    rw [windowDigits, format03d_ofNat]
    exact (format03d_window w hw).1
  refine ⟨?_, ?_, ?_, ?_, ?_⟩
  · simp [pack]
  · intro hn1 hn2
    simp only [pack]
    rw [if_neg (by decide)]
    simp only [hlen]
    rw [if_neg (by decide), if_pos ⟨hn1, hn2⟩]
  · simp only [pack]
    rw [if_neg (show ¬(WR = RD) by decide),
      if_neg (show ¬(ON ≠ ON ∧ ON ≠ OFF) by decide),
      if_neg (show ¬(WR = RD ∧ ([ON] : List Nat).length ≠ 0) by decide)]
  · simp only [pack]
    rw [if_neg (show ¬(WR = RD) by decide),
      if_neg (show ¬(OFF ≠ ON ∧ OFF ≠ OFF) by decide),
      if_neg (show ¬(WR = RD ∧ ([OFF] : List Nat).length ≠ 0) by decide)]
  · simp only [pack]
    rw [if_neg (show ¬(WR = RD ∧ s.length ≠ 0) from fun hc => absurd hc.1 (by decide))]
    simp only [hlen]
    rw [if_neg (by decide)]
    rfl

theorem c10_int_data_handling_witness :
    pack (.int ((0 : Nat) : Int)) RD (.int 0x35) 0 =
      .error (.typeError "object of type int has no len") ∧
    (0x35 ≠ ON → 0x35 ≠ OFF → pack (.int ((0 : Nat) : Int)) WR (.int 0x35) 0 =
      .error (.valueError "Data must be string unless ON or OFF logic")) ∧
    pack (.int ((0 : Nat) : Int)) WR (.int ON) 0 = pack (.int ((0 : Nat) : Int)) WR (.str [ON]) 0 ∧
    pack (.int ((0 : Nat) : Int)) WR (.int OFF) 0 = pack (.int ((0 : Nat) : Int)) WR (.str [OFF]) 0 ∧
    (pack (.int ((0 : Nat) : Int)) WR (.str [0x99]) 0).isOk = true :=
  c10_int_data_handling 0 0 0x35 [0x99] (by decide)

/-- C6 counterexample: `02 80 0A 03 38 39` is a complete, valid,
checksum-correct frame (`unpack_reply` decodes it with the flag
`true`), but its payload byte is the newline `0x0A`, which the regex
`.` never matches — so feeding it concatenated with a second valid
frame yields only ONE reply, not two, and the newline frame stays in
the buffer. -/
theorem c6_counterexample :
    unpack_reply [0x02, 0x80, 0x0A, 0x03, 0x38, 0x39] = .ok (0, [0x0A], true) ∧
    scan_for_replies
        ([0x02, 0x80, 0x0A, 0x03, 0x38, 0x39] ++ [0x02, 0x80, 0x06, 0x03, 0x38, 0x35])
      = ([[0x02, 0x80, 0x06, 0x03, 0x38, 0x35]], [0x02, 0x80, 0x0A, 0x03, 0x38, 0x39]) ∧
    ([[0x02, 0x80, 0x06, 0x03, 0x38, 0x35]] : List (List Nat)).length ≠ 2 := by decide

/-- C6 as amended: feeding the scanner a buffer of two concatenated
valid frames in one call extracts exactly the two frames, in arrival
order, provided no interior byte (address or payload) of either frame
is `ETX` or the newline byte `0x0A` — the regex `.` never matches a
newline, so a frame carrying `0x0A` is never matched (see the
counterexample), and an interior `ETX` would end a match early.
Decoding the extracted frames with `unpack_reply` (as
`controller.recv` does) yields exactly two Replies in that order. -/
theorem c6_two_frames (a1 a2 : Nat) (p1 p2 : List Nat) (c11 c12 c21 c22 : Nat)
    (ha1 : a1 ≠ ETX ∧ a1 ≠ 0x0A) (hp1 : ∀ x ∈ p1, x ≠ ETX ∧ x ≠ 0x0A)
    (hc11 : isWordChar c11) (hc12 : isWordChar c12)
    (ha2 : a2 ≠ ETX ∧ a2 ≠ 0x0A) (hp2 : ∀ x ∈ p2, x ≠ ETX ∧ x ≠ 0x0A)
    (hc21 : isWordChar c21) (hc22 : isWordChar c22) :
    scan_for_replies
        ((STX :: a1 :: p1 ++ [ETX, c11, c12]) ++ (STX :: a2 :: p2 ++ [ETX, c21, c22]))
      = ([STX :: a1 :: p1 ++ [ETX, c11, c12], STX :: a2 :: p2 ++ [ETX, c21, c22]], []) ∧
    (scan_for_replies
        ((STX :: a1 :: p1 ++ [ETX, c11, c12]) ++ (STX :: a2 :: p2 ++ [ETX, c21, c22]))).1.map
        unpack_reply
      = [unpack_reply (STX :: a1 :: p1 ++ [ETX, c11, c12]),
          unpack_reply (STX :: a2 :: p2 ++ [ETX, c21, c22])] := by
  have h1 := scan_frame_step a1 p1 c11 c12
    (STX :: a2 :: p2 ++ [ETX, c21, c22]) ha1 hp1 hc11 hc12
  have h2 := scan_frame_step a2 p2 c21 c22 [] ha2 hp2 hc21 hc22
  rw [List.append_nil] at h2
  have h0 : scan_for_replies ([] : List Nat) = ([], []) := rfl
  constructor
  · rw [h1, h2, h0]
  · rw [h1, h2, h0]
    rfl

theorem c6_two_frames_witness :
    scan_for_replies
        ((STX :: 0x80 :: [0x06] ++ [ETX, 0x38, 0x35]) ++ (STX :: 0x80 :: [0x15] ++ [ETX, 0x39, 0x36]))
      = ([STX :: 0x80 :: [0x06] ++ [ETX, 0x38, 0x35], STX :: 0x80 :: [0x15] ++ [ETX, 0x39, 0x36]], []) ∧
    (scan_for_replies
        ((STX :: 0x80 :: [0x06] ++ [ETX, 0x38, 0x35]) ++ (STX :: 0x80 :: [0x15] ++ [ETX, 0x39, 0x36]))).1.map
        unpack_reply
      = [unpack_reply (STX :: 0x80 :: [0x06] ++ [ETX, 0x38, 0x35]),
          unpack_reply (STX :: 0x80 :: [0x15] ++ [ETX, 0x39, 0x36])] :=
  c6_two_frames 0x80 0x80 [0x06] [0x15] 0x38 0x35 0x39 0x36 (by decide) (by decide)
    (by decide) (by decide) (by decide) (by decide) (by decide) (by decide)

/-- C7 counterexample: a noise byte (`0x58`) in front of a matched
frame is NOT discarded by `scan_for_replies` — `reply_regex.sub` only
removes the matches — so the residual buffer is `[0x58]`, not the
empty suffix the claim requires. -/
theorem c7_counterexample :
    (scan_for_replies [0x58, 0x02, 0x80, 0x06, 0x03, 0x38, 0x35]).2 = [0x58] ∧
    ([0x58] : List Nat) ≠ [] := by decide

/-- C7 as amended: each complete frame found is removed from the
buffer, and ALL bytes outside the matches — noise around the frames as
well as any incomplete trailing bytes — remain in the buffer, in
order. -/
theorem c7_scan_residue (n1 t : List Nat) (a : Nat) (p : List Nat) (c1 c2 : Nat)
    (hn1 : ∀ x ∈ n1, x ≠ STX)
    (ha : a ≠ ETX ∧ a ≠ 0x0A) (hp : ∀ x ∈ p, x ≠ ETX ∧ x ≠ 0x0A)
    (hc1 : isWordChar c1) (hc2 : isWordChar c2)
    (ht : ∀ x ∈ t, x ≠ ETX) :
    scan_for_replies (n1 ++ ((STX :: a :: p ++ [ETX, c1, c2]) ++ t))
      = ([STX :: a :: p ++ [ETX, c1, c2]], n1 ++ t) := by
  rw [scan_append_noise n1 _ hn1, scan_frame_step a p c1 c2 t ha hp hc1 hc2,
    scan_no_etx t ht]

/-- C2 counterexample: decoding the encoding of window `0`, mode `WR`,
devno `0`, payload `"1"` does not recover the payload `"1"`: the
contents field of `unpack` is `reply[2:-3]`, which also contains the
three window digits and the mode byte. -/
theorem c2_counterexample :
    unpack (pack (.int ((0 : Nat) : Int)) WR (.str [0x31]) 0).toOption
      = .ok ([0x30, 0x30, 0x30, 0x31, 0x31], 0, true) ∧
    ([0x30, 0x30, 0x30, 0x31, 0x31] : List Nat) ≠ [0x31] := by decide

/-- C2 as amended: for every valid input (window in `[0, 999]`, mode
`RD` or `WR`, devno in `[0, 31]`, ASCII payload, empty when the mode
is `RD`), decoding the encoding recovers the same devno and reports
checksum-valid `true`, and the returned contents are the three window
digits followed by the mode byte followed by the payload — so the
payload is recovered only as the part after those four bytes. -/
theorem c2_roundtrip (w devno mode : Nat) (p : List Nat)
    (hw : w ≤ 999) (hdev : devno ≤ 31)
    (hmode : mode = RD ∨ mode = WR)
    (hp : ∀ b ∈ p, b < 0x80)
    (hread : mode = RD → p = []) :
    unpack (pack (.int (w : Int)) mode (.str p) devno).toOption
      = .ok (format03d (w : Int) ++ mode :: p, (devno : Int), true) ∧
    (format03d (w : Int) ++ mode :: p).drop 4 = p := by
  obtain ⟨hlen3, hdig⟩ := format03d_window w hw
  rw [← format03d_ofNat] at hlen3 hdig
  have hchk1 : ¬(mode = RD ∧ p.length ≠ 0) := by
    rcases hmode with hm | hm
    · intro hc
      exact hc.2 (by rw [hread hm]; rfl)
    · intro hc
      rw [hm] at hc
      exact absurd hc.1 (by decide)
  have hpack : pack (.int (w : Int)) mode (.str p) devno =
      .ok ((STX :: (0x80 + devno) :: (format03d (w : Int) ++ mode :: p ++ [ETX])) ++
        crc ((0x80 + devno) :: (format03d (w : Int) ++ mode :: p ++ [ETX]))) := by
    simp only [pack, windowDigits]
    rw [if_neg hchk1, if_neg (fun hc => hc hlen3)]
    rfl
  have haddr : 128 ≤ 0x80 + devno ∧ 0x80 + devno < 256 := ⟨by omega, by omega⟩
  have hrest : ∀ b ∈ format03d (w : Int) ++ mode :: p ++ [ETX], b < 128 := by
    intro b hb
    rcases List.mem_append.mp hb with h | h
    · rcases List.mem_append.mp h with h1 | h1
      · have := hdig b h1
        omega
      · rcases List.mem_cons.mp h1 with h2 | h2
        · rcases hmode with hm | hm <;> (rw [h2, hm]; decide)
        · have := hp b h2
          omega
    · have hbe : b = ETX := by simpa using h
      rw [hbe]
      decide
  have hcs := crc_two_bytes (0x80 + devno)
    (format03d (w : Int) ++ mode :: p ++ [ETX]) haddr hrest
  have hdevno : ((0x80 + devno : Nat) : Int) - 0x80 = (devno : Int) := by
    push_cast
    omega
  constructor
  · rw [hpack]
    show unpack (some _) = _
    rw [show (STX :: (0x80 + devno) :: (format03d (w : Int) ++ mode :: p ++ [ETX])) ++
        crc ((0x80 + devno) :: (format03d (w : Int) ++ mode :: p ++ [ETX])) =
        STX :: (0x80 + devno) :: ((format03d (w : Int) ++ mode :: p) ++
          [ETX, hexDigitChar (crcVal ((0x80 + devno) ::
              (format03d (w : Int) ++ mode :: p ++ [ETX])) / 16),
            hexDigitChar (crcVal ((0x80 + devno) ::
              (format03d (w : Int) ++ mode :: p ++ [ETX])) % 16)]) from by
      rw [hcs]; simp]
    rw [unpack_frame_ok (0x80 + devno) (format03d (w : Int) ++ mode :: p) _ _ hcs, hdevno]
  · obtain ⟨d0, d1, d2, hd⟩ := List.length_eq_three.mp hlen3
    rw [hd]
    rfl

theorem c2_roundtrip_witness :
    unpack (pack (.int ((224 : Nat) : Int)) RD (.str []) 3).toOption
      = .ok (format03d ((224 : Nat) : Int) ++ RD :: [], ((3 : Nat) : Int), true) ∧
    (format03d ((224 : Nat) : Int) ++ RD :: []).drop 4 = [] :=
  c2_roundtrip 224 3 RD [] (by decide) (by decide) (Or.inl rfl)
    (by intro b hb; cases hb) (fun _ => rfl)

theorem c7_scan_residue_witness :
    scan_for_replies ([0x58] ++ ((STX :: 0x80 :: [0x06] ++ [ETX, 0x38, 0x35]) ++ [0x02, 0x80]))
      = ([STX :: 0x80 :: [0x06] ++ [ETX, 0x38, 0x35]], [0x58] ++ [0x02, 0x80]) :=
  c7_scan_residue [0x58] [0x02, 0x80] 0x80 [0x06] 0x38 0x35 (by decide) (by decide)
    (by decide) (by decide) (by decide) (by decide)
